import Mathlib

/-!
# Native helpers: runnerw, restarter, IdeaWin32

A shallow embedding of the three native Windows helpers of the repository
(`native/runner/runnerw/runnerw.cpp`, `native/restarter/restarter.cpp`,
`native/IdeaWin32/IdeaWin32.cpp`) together with theorems about them.

Conventions:
* bytes (`char`) are natural numbers `0..255`; `DWORD`s are natural numbers
  below `2^32`; `jint`/`jlong` fields are integers obtained by the usual
  two's-complement conversion;
* operating-system and JNI calls whose outcome the program cannot determine
  are parameters (oracles) of the model;
* effects are recorded explicitly (counters, output lists, traces).
-/

/-! ## console-relay: `native/runner/runnerw/runnerw.cpp` -/

namespace Runnerw

/-- Global `char IAC = 'a';` (runnerw.cpp, line 38): the character `a`, code 97. -/
def IAC : Nat := 97

/-- Global `char BRK = 'b';` (runnerw.cpp, line 39): the character `b`, code 98. -/
def BRK : Nat := 98

/-- Console control event codes of `wincon.h`. -/
def CTRL_C_EVENT : Nat := 0

/-- Console control event `CTRL_BREAK_EVENT` of `wincon.h`. -/
def CTRL_BREAK_EVENT : Nat := 1

/-- Console control event `CTRL_CLOSE_EVENT` of `wincon.h`. -/
def CTRL_CLOSE_EVENT : Nat := 2

/-- Console control event `CTRL_LOGOFF_EVENT` of `wincon.h`. -/
def CTRL_LOGOFF_EVENT : Nat := 5

/-- Console control event `CTRL_SHUTDOWN_EVENT` of `wincon.h`. -/
def CTRL_SHUTDOWN_EVENT : Nat := 6

/-- The observable state of the relay: the global flag `is_iac`, the number of
calls of `CtrlBreak` made so far (each one is a
`GenerateConsoleCtrlEvent(CTRL_BREAK_EVENT, 0)`), and the bytes handed to
`WriteFile(write_stdin, ...)` so far, oldest first. -/
structure State where
  is_iac : Bool
  breaks : Nat
  written : List Nat
deriving DecidableEq, Repr

/-- The state at program start: `BOOL is_iac = FALSE;`, nothing raised, nothing written. -/
def initial : State := { is_iac := false, breaks := 0, written := [] }

/-- Function `CtrlBreak()`: one call of `GenerateConsoleCtrlEvent(CTRL_BREAK_EVENT, 0)`.
(A failure of that call only prints a message and is not part of the state.) -/
def CtrlBreak (s : State) : State := { s with breaks := s.breaks + 1 }

/-- The body of the `for` loop of `Scan` for the character `c = buf[i]`. -/
def ScanStep (s : State) (c : Nat) : State :=
  let s1 := if s.is_iac then (if c = BRK then CtrlBreak s else { s with is_iac := false }) else s
  if c = IAC then { s1 with is_iac := true } else s1

/-- Function `BOOL Scan(char buf[], int count)`: runs the loop body for
`i = 0, ..., count - 1` on `buf[i]` and returns `FALSE`. -/
def Scan (s : State) (buf : List Nat) (count : Nat) : State × Bool :=
  ((List.range count).foldl (fun st i => ScanStep st (buf.getD i 0)) s, false)

/-- Function `BOOL CtrlHandler(DWORD fdwCtrlType)`: the new state and the returned `BOOL`. -/
def CtrlHandler (s : State) (fdwCtrlType : Nat) : State × Bool :=
  if fdwCtrlType = CTRL_C_EVENT ∨ fdwCtrlType = CTRL_CLOSE_EVENT ∨
      fdwCtrlType = CTRL_LOGOFF_EVENT ∨ fdwCtrlType = CTRL_SHUTDOWN_EVENT then
    (CtrlBreak s, true)
  else if fdwCtrlType = CTRL_BREAK_EVENT then
    (s, false)
  else
    (s, false)

/-- Feeding a byte sequence to `Scan` one byte at a time, as `main` does:
`Scan(buf, 1)` for each byte in turn, `is_iac` persisting between the calls. -/
def feed (s : State) (input : List Nat) : State :=
  input.foldl (fun st c => (Scan st [c] 1).1) s

/-- Specification side (C2): the number of positions at which byte `IAC` is
immediately followed by byte `BRK`. -/
def countPairs : List Nat → Nat
  | [] => 0
  | a :: l =>
    (match l with
      | [] => 0
      | b :: _ => if a = IAC ∧ b = BRK then 1 else 0) + countPairs l

/-- Whether the three-byte run `IAC, BRK, BRK` occurs somewhere in the input. -/
def hasArmedRepeat : List Nat → Bool
  | [] => false
  | a :: l =>
    (match l with
      | b :: c :: _ => a = IAC && b = BRK && c = BRK
      | _ => false) || hasArmedRepeat l

/-- The number of breaks the scanner raises on an input, as a function of
whether it starts armed (a list-level mirror of `ScanStep`, used in proofs). -/
def breaksFrom : Bool → List Nat → Nat
  | _, [] => 0
  | armed, c :: l =>
    (if armed ∧ c = BRK then 1 else 0) +
      breaksFrom (if c = IAC then true else if armed then (if c = BRK then true else false) else false) l

end Runnerw

/-! ## process-restarter: `native/restarter/restarter.cpp` -/

namespace Restarter

/-- The externally visible actions of the restarter, in the order they happen. -/
inductive Event where
  | OpenProcess (pid : Int)
  | WaitForSingleObject (h : Nat)
  | CloseHandle (h : Nat)
  | execv (path : String) (args : List String)
  | stdout (text : String)
  | stderr (text : String)
deriving DecidableEq, Repr

/-- The operating system and C runtime as seen by `_tmain`:
* `ttoi` is `_ttoi`;
* `OpenProcess pid` is `OpenProcess(SYNCHRONIZE, FALSE, pid)`, `none` for a `NULL` handle;
* `execv path args` is `_texecv`: `none` when the process image is replaced (the call
  does not return), `some (rc, errno)` when the call returns `rc` with `errno` set. -/
structure Os where
  ttoi : String → Int
  OpenProcess : Int → Option Nat
  execv : String → List String → Option (Int × Int)

/-- A run of `_tmain`: the actions performed and the value returned
(`none` when `_tmain` does not return because the process image was replaced). -/
structure Run where
  trace : List Event
  exitCode : Option Int
deriving DecidableEq, Repr

/-- The text `_tprintf(_T("Error restarting process: errno is %d"), errno)` prints. -/
def errorText (errno : Int) : String :=
  "Error restarting process: errno is " ++ toString errno

/-- Function `int _tmain(int argc, _TCHAR* argv[])` with `argc = argv.length`.
`_tprintf` writes to the standard output stream. The blocking
`WaitForSingleObject(parent_process, INFINITE)` is recorded when it is issued. -/
def _tmain (os : Os) (argv : List String) : Run :=
  if argv.length < 3 then { trace := [], exitCode := some 0 }
  else
    let ppid := os.ttoi (argv.getD 1 "")
    let t1 := [Event.OpenProcess ppid]
    let t2 :=
      match os.OpenProcess ppid with
      | some parent_process =>
        t1 ++ [Event.WaitForSingleObject parent_process, Event.CloseHandle parent_process]
      | none => t1
    let t3 := t2 ++ [Event.execv (argv.getD 2 "") (argv.drop 2)]
    match os.execv (argv.getD 2 "") (argv.drop 2) with
    | none => { trace := t3, exitCode := none }
    | some (rc, errno) =>
      if rc = -1 then { trace := t3 ++ [Event.stdout (errorText errno)], exitCode := some 0 }
      else { trace := t3, exitCode := some 0 }

/-- What a run wrote to the standard output stream. -/
def stdoutOf : List Event → List String
  | [] => []
  | Event.stdout t :: l => t :: stdoutOf l
  | _ :: l => stdoutOf l

/-- What a run wrote to the standard error stream. -/
def stderrOf : List Event → List String
  | [] => []
  | Event.stderr t :: l => t :: stderrOf l
  | _ :: l => stderrOf l

/-- A sample system: `_ttoi` yields 4242, the parent process opens as handle 7, and
`_texecv` fails with `errno` 2. -/
def sampleOs : Os :=
  { ttoi := fun _ => 4242
    OpenProcess := fun _ => some 7
    execv := fun _ _ => some (-1, 2) }

end Restarter

/-! ## win32-file-info: `native/IdeaWin32/IdeaWin32.cpp` -/

namespace IdeaWin32

/-- Constant `FILE_ATTRIBUTE_REPARSE_POINT` of `winnt.h`. -/
def FILE_ATTRIBUTE_REPARSE_POINT : Nat := 0x400

/-- Constant `IO_REPARSE_TAG_SYMLINK` of `winnt.h`. -/
def IO_REPARSE_TAG_SYMLINK : Nat := 0xA000000C

/-- The definition `#define BROKEN_SYMLINK_ATTR -1`. -/
def BROKEN_SYMLINK_ATTR : Int := -1

/-- The macro `#define IS_SET(flags, flag) ((flags & flag) == flag)`. -/
def IS_SET (flags flag : Nat) : Bool := (flags &&& flag) == flag

/-- Conversion of an `int` value to a `DWORD` (reduction modulo `2^32`). -/
def toDWORD (x : Int) : Nat := (x % 2 ^ 32).toNat

/-- Conversion of a `DWORD` to a `jint` (two's complement, 32 bits). -/
def toJint (x : Nat) : Int :=
  if x % 2 ^ 32 < 2 ^ 31 then ((x % 2 ^ 32 : Nat) : Int) else ((x % 2 ^ 32 : Nat) : Int) - 2 ^ 32

/-- Conversion of an integer to a 32-bit `int` (two's complement wrap-around). -/
def toInt32 (x : Int) : Int :=
  if x % 2 ^ 32 < 2 ^ 31 then x % 2 ^ 32 else x % 2 ^ 32 - 2 ^ 32

/-- Function `pairToInt64`: the `ULARGE_INTEGER` with the given low and high parts,
its `QuadPart` returned as a (signed) `LONGLONG`. -/
def pairToInt64 (lowPart highPart : Nat) : Int :=
  let quad : Nat := lowPart % 2 ^ 32 + (highPart % 2 ^ 32) * 2 ^ 32
  if quad < 2 ^ 63 then (quad : Int) else (quad : Int) - 2 ^ 64

/-- The Win32 structure `FILETIME`. -/
structure FILETIME where
  dwLowDateTime : Nat
  dwHighDateTime : Nat
deriving DecidableEq, Repr

/-- The fields of the Win32 structure `WIN32_FIND_DATA` the code reads.
`cFileName` is the name as a list of UTF-16 code units (without the terminator). -/
structure WIN32_FIND_DATA where
  dwFileAttributes : Nat
  ftLastWriteTime : FILETIME
  nFileSizeHigh : Nat
  nFileSizeLow : Nat
  dwReserved0 : Nat
  cFileName : List Nat
deriving DecidableEq, Repr

/-- The fields of the Win32 structure `BY_HANDLE_FILE_INFORMATION` the code reads. -/
structure BY_HANDLE_FILE_INFORMATION where
  dwFileAttributes : Nat
  ftLastWriteTime : FILETIME
  nFileSizeHigh : Nat
  nFileSizeLow : Nat
deriving DecidableEq, Repr

/-- The Java record `com.intellij.openapi.util.io.win32.FileInfo`:
`String name; int attributes; long timestamp; long length`. -/
structure FileInfo where
  name : List Nat
  attributes : Int
  timestamp : Int
  length : Int
deriving DecidableEq, Repr

/-- The operating system and the JNI environment as seen by the native code.
* `malloc n`: whether `malloc` of `n` bytes returns a non-null pointer;
* `CreateFile name`: the handle `CreateFile(name, 0, FILE_SHARE_ATTRIBUTES, NULL,
  OPEN_EXISTING, FILE_FLAG_BACKUP_SEMANTICS, NULL)` returns, `none` for
  `INVALID_HANDLE_VALUE`;
* `GetFileInformationByHandle h`: the data filled in, `none` when the call fails;
* `AllocObject`, `NewString s`, `arrayAlloc n`, `FindClass`: whether the JNI call
  returns a non-null reference (`arrayAlloc n` for an array of `n ≥ 0` slots);
* `FindFirstFile path`: the enumeration for `path`: the record `FindFirstFile` fills in
  followed by the records of the successive successful `FindNextFile` calls; the empty
  list stands for `INVALID_HANDLE_VALUE`. -/
structure Env where
  malloc : Nat → Bool
  CreateFile : List Nat → Option Nat
  GetFileInformationByHandle : Nat → Option BY_HANDLE_FILE_INFORMATION
  AllocObject : Bool
  NewString : List Nat → Bool
  arrayAlloc : Nat → Bool
  FindClass : Bool
  FindFirstFile : List Nat → List WIN32_FIND_DATA

/-- The name `CreateFileInfo` builds in `lpName`: the path, followed when `append` is set
by a backslash (code 92) and the file name of the find record. -/
def linkName (path : List Nat) (append : Bool) (lpData : WIN32_FIND_DATA) : List Nat :=
  if append then path ++ [92] ++ lpData.cFileName else path

/-- Function `CreateFileInfo(env, path, append, lpData, fileInfoClass)`.
The first component is the returned object (`none` for `NULL`); the second lists the
names passed to `CreateFile` during the call, in order. -/
def CreateFileInfo (env : Env) (path : List Nat) (append : Bool)
    (lpData : WIN32_FIND_DATA) : Option FileInfo × List (List Nat) :=
  let attributes : Nat := lpData.dwFileAttributes
  let timestamp : Int :=
    pairToInt64 lpData.ftLastWriteTime.dwLowDateTime lpData.ftLastWriteTime.dwHighDateTime
  let length : Int := pairToInt64 lpData.nFileSizeLow lpData.nFileSizeHigh
  let r : (Nat × Int × Int) × List (List Nat) :=
    if IS_SET attributes FILE_ATTRIBUTE_REPARSE_POINT then
      if IS_SET lpData.dwReserved0 IO_REPARSE_TAG_SYMLINK then
        let nameLen := path.length + lpData.cFileName.length + 2
        if env.malloc (nameLen * 2) then
          let lpName := linkName path append lpData
          match env.CreateFile lpName with
          | some th =>
            match env.GetFileInformationByHandle th with
            | some targetData =>
              ((targetData.dwFileAttributes ||| FILE_ATTRIBUTE_REPARSE_POINT,
                pairToInt64 targetData.ftLastWriteTime.dwLowDateTime
                  targetData.ftLastWriteTime.dwHighDateTime,
                pairToInt64 targetData.nFileSizeLow targetData.nFileSizeHigh), [lpName])
            | none => ((toDWORD BROKEN_SYMLINK_ATTR, 0, 0), [lpName])
          | none => ((toDWORD BROKEN_SYMLINK_ATTR, 0, 0), [lpName])
        else ((toDWORD BROKEN_SYMLINK_ATTR, 0, 0), [])
      else
        ((attributes &&& toDWORD (-(FILE_ATTRIBUTE_REPARSE_POINT : Int) - 1), timestamp, length), [])
    else ((attributes, timestamp, length), [])
  if !env.AllocObject then (none, r.2)
  else if !env.NewString lpData.cFileName then (none, r.2)
  else
    (some { name := lpData.cFileName, attributes := toJint r.1.1,
            timestamp := r.1.2.1, length := r.1.2.2 }, r.2)

/-- Function `CopyObjectArray(env, dst, src, count)`: `dst[i] = src[i]` for
`i = 0, ..., count - 1`; returns the destination array and `true`. -/
def CopyObjectArray (dst src : List (Option FileInfo)) (count : Nat) :
    List (Option FileInfo) × Bool :=
  ((List.range count).foldl (fun d i => d.set i (src.getD i none)) dst, true)

/-- The JNI call `NewObjectArray(size, fileInfoClass, NULL)`: `NULL` for a negative size
or when the allocation fails, otherwise an array of `size` null references. -/
def NewObjectArray (env : Env) (size : Int) : Option (List (Option FileInfo)) :=
  if size < 0 then none
  else if env.arrayAlloc size.toNat then some (List.replicate size.toNat none)
  else none

/-- The block `if (len == maxlen) { old = rv; rv = NewObjectArray(maxlen <<= 1, ...); ... }`
at the head of the loop body of `listChildren`: the array and `maxlen` afterwards, or
`none` when the code jumps to `error`. `maxlen <<= 1` is a shift of a 32-bit `int`; a
negative result makes `NewObjectArray` fail. -/
def growIfFull (env : Env) (rv : List (Option FileInfo)) (len maxlen : Nat) :
    Option (List (Option FileInfo) × Nat) :=
  if len = maxlen then
    match NewObjectArray env (toInt32 ((maxlen : Int) * 2)) with
    | none => none
    | some rv2 =>
      if !(CopyObjectArray rv2 rv len).2 then none
      else some ((CopyObjectArray rv2 rv len).1, (toInt32 ((maxlen : Int) * 2)).toNat)
  else some (rv, maxlen)

/-- The `do ... while (FindNextFile(h, &data))` loop of `listChildren`, run over the
records of the enumeration that remain (the head is the record currently in `data`).
The state is the array `rv` and the `int` variables `len` and `maxlen`.
The result is `none` when the code jumps to `error`, otherwise the final `rv` and `len`. -/
def listLoop (env : Env) (path : List Nat) :
    List WIN32_FIND_DATA → List (Option FileInfo) → Nat → Nat →
      Option (List (Option FileInfo) × Nat)
  | [], rv, len, _ => some (rv, len)
  | data :: next, rv, len, maxlen =>
    match growIfFull env rv len maxlen with
    | none => none
    | some (rv1, maxlen1) =>
      let o := (CreateFileInfo env path true data).1
      listLoop env path next (rv1.set len o) (len + 1) maxlen1

/-- Function `Java_com_intellij_openapi_util_io_win32_IdeaWin32_listChildren`:
`none` stands for a `NULL` result, `some a` for the returned array `a`
(a `none` slot is a null reference). -/
def Java_com_intellij_openapi_util_io_win32_IdeaWin32_listChildren (env : Env)
    (path : List Nat) : Option (List (Option FileInfo)) :=
  match env.FindFirstFile path with
  | [] => none
  | data :: next =>
    if !env.FindClass then none
    else
      match NewObjectArray env 16 with
      | none => none
      | some rv0 =>
        match listLoop env path (data :: next) rv0 0 16 with
        | none => none
        | some (old, len) =>
          match NewObjectArray env (len : Int) with
          | none => none
          | some rv =>
            let c := CopyObjectArray rv old len
            if !c.2 then none else some c.1

/-- An environment in which every allocation succeeds, every link target fails to open,
and the directory `path` enumerates the given records. -/
def sampleEnv (entries : List WIN32_FIND_DATA) : Env :=
  { malloc := fun _ => true
    CreateFile := fun _ => none
    GetFileInformationByHandle := fun _ => none
    AllocObject := true
    NewString := fun _ => true
    arrayAlloc := fun _ => true
    FindClass := true
    FindFirstFile := fun _ => entries }

/-- A plain file record with the given name code and size. -/
def sampleEntry (i : Nat) : WIN32_FIND_DATA :=
  { dwFileAttributes := 0x20
    ftLastWriteTime := { dwLowDateTime := i, dwHighDateTime := 1 }
    nFileSizeHigh := 0
    nFileSizeLow := 10 * i
    dwReserved0 := 0
    cFileName := [65 + i] }

/-- A record of a broken symbolic link `L`: reparse point with the symbolic-link tag. -/
def symlinkEntry : WIN32_FIND_DATA :=
  { dwFileAttributes := 0x410
    ftLastWriteTime := { dwLowDateTime := 5, dwHighDateTime := 6 }
    nFileSizeHigh := 0
    nFileSizeLow := 7
    dwReserved0 := 0xA000000C
    cFileName := [76] }

/-- A record of a reparse point `L` whose tag is `IO_REPARSE_TAG_LX_SYMLINK` (`0xA000001D`),
a tag different from `IO_REPARSE_TAG_SYMLINK` that has all the bits of it. -/
def lxLinkEntry : WIN32_FIND_DATA :=
  { dwFileAttributes := 0x410
    ftLastWriteTime := { dwLowDateTime := 5, dwHighDateTime := 6 }
    nFileSizeHigh := 0
    nFileSizeLow := 7
    dwReserved0 := 0xA000001D
    cFileName := [76] }

end IdeaWin32

/-! ## Theorems: console-relay -/

namespace Runnerw

theorem Scan_single (s : State) (c : Nat) : (Scan s [c] 1).1 = ScanStep s c := by
  simp [Scan, List.range_succ]

theorem ScanStep_breaks (s : State) (c : Nat) :
    (ScanStep s c).breaks = s.breaks + (if s.is_iac = true ∧ c = BRK then 1 else 0) := by
  unfold ScanStep CtrlBreak
  split_ifs <;> simp_all

theorem ScanStep_is_iac (s : State) (c : Nat) :
    (ScanStep s c).is_iac =
      (if c = IAC then true else if s.is_iac then (if c = BRK then true else false) else false) := by
  unfold ScanStep CtrlBreak
  split_ifs <;> simp_all

theorem feed_breaks (input : List Nat) (s : State) :
    (feed s input).breaks = s.breaks + breaksFrom s.is_iac input := by
  induction input generalizing s with
  | nil => simp [feed, breaksFrom]
  | cons c l ih =>
    have h : feed s (c :: l) = feed (ScanStep s c) l := by
      simp [feed, Scan_single]
    rw [h, ih, ScanStep_breaks, ScanStep_is_iac]
    simp only [breaksFrom]
    omega

theorem IAC_ne_BRK : IAC ≠ BRK := by decide

theorem breaksFrom_cons_IAC (armed : Bool) (l : List Nat) :
    breaksFrom armed (IAC :: l) = breaksFrom true l := by
  simp [breaksFrom, IAC_ne_BRK]

theorem breaksFrom_true_BRK (l : List Nat) :
    breaksFrom true (BRK :: l) = 1 + breaksFrom true l := by
  simp [breaksFrom, Ne.symm IAC_ne_BRK]

theorem breaksFrom_cons_other (armed : Bool) (c : Nat) (l : List Nat)
    (h1 : c ≠ IAC) (h2 : c ≠ BRK) : breaksFrom armed (c :: l) = breaksFrom false l := by
  simp [breaksFrom, h1, h2]

theorem breaksFrom_false_cons (c : Nat) (l : List Nat) (h1 : c ≠ IAC) :
    breaksFrom false (c :: l) = breaksFrom false l := by
  simp [breaksFrom, h1]

theorem countPairs_cons_ne (c : Nat) (l : List Nat) (h : c ≠ IAC) :
    countPairs (c :: l) = countPairs l := by
  cases l <;> simp [countPairs, h]

theorem countPairs_IAC_BRK (l : List Nat) :
    countPairs (IAC :: BRK :: l) = 1 + countPairs l := by
  rw [← countPairs_cons_ne BRK l (Ne.symm IAC_ne_BRK)]
  simp [countPairs]

theorem countPairs_IAC_cons (c : Nat) (l : List Nat) (h : c ≠ BRK) :
    countPairs (IAC :: c :: l) = countPairs (c :: l) := by
  simp [countPairs, h]

theorem hasArmedRepeat_tail (c : Nat) (l : List Nat) (h : hasArmedRepeat (c :: l) = false) :
    hasArmedRepeat l = false := by
  unfold hasArmedRepeat at h
  simp only [Bool.or_eq_false_iff] at h
  exact h.2

theorem hasArmedRepeat_triple (l : List Nat) : hasArmedRepeat (IAC :: BRK :: BRK :: l) = true := by
  simp [hasArmedRepeat]

theorem breaksFrom_countPairs (l : List Nat) :
    (hasArmedRepeat l = false → breaksFrom false l = countPairs l) ∧
    (hasArmedRepeat (IAC :: l) = false → breaksFrom true l = countPairs (IAC :: l)) ∧
    (hasArmedRepeat l = false → l.head? ≠ some BRK → breaksFrom true l = countPairs l) := by
  induction l with
  | nil => simp [breaksFrom, countPairs]
  | cons c l ih =>
    obtain ⟨ih1, ih2, ih3⟩ := ih
    have hne := IAC_ne_BRK
    refine ⟨?_, ?_, ?_⟩
    · intro h
      have hl := hasArmedRepeat_tail c l h
      by_cases hc : c = IAC
      · subst hc
        rw [breaksFrom_cons_IAC, ih2 h]
      · rw [breaksFrom_false_cons c l hc, ih1 hl, countPairs_cons_ne c l hc]
    · intro h
      have hcl := hasArmedRepeat_tail IAC (c :: l) h
      have hl := hasArmedRepeat_tail c l hcl
      by_cases hc : c = IAC
      · subst hc
        rw [breaksFrom_cons_IAC, ih2 hcl, countPairs_IAC_cons IAC _ hne]
      · by_cases hb : c = BRK
        · subst hb
          have hhead : l.head? ≠ some BRK := by
            cases l with
            | nil => simp
            | cons d l2 =>
              intro hd
              simp only [List.head?_cons, Option.some.injEq] at hd
              subst hd
              rw [hasArmedRepeat_triple] at h
              exact Bool.noConfusion h
          rw [breaksFrom_true_BRK, ih3 hl hhead, countPairs_IAC_BRK]
        · rw [breaksFrom_cons_other true c l hc hb, ih1 hl, countPairs_IAC_cons c l hb,
            countPairs_cons_ne c l hc]
    · intro h hhead
      have hl := hasArmedRepeat_tail c l h
      have hb : c ≠ BRK := by
        intro hcb
        exact hhead (by simp [hcb])
      by_cases hc : c = IAC
      · subst hc
        rw [breaksFrom_cons_IAC, ih2 h]
      · rw [breaksFrom_cons_other true c l hc hb, ih1 hl, countPairs_cons_ne c l hc]

/-- C2 (as stated, refuted): on the input `IAC, BRK, BRK` two breaks are raised although
`IAC` is immediately followed by `BRK` at one position only (the second `BRK` follows a
`BRK`); and the byte `IAC`, which is not `BRK`, seen while armed leaves the scanner armed. -/
theorem Scan_breaks_twice_after_one_pair :
    (feed initial [97, 98, 98]).breaks = 2 ∧ countPairs [97, 98, 98] = 1 ∧
    (97 ≠ BRK ∧ (Scan { initial with is_iac := true } [97] 1).1.is_iac = true) := by
  decide

/-- C2 (amended): starting from the disarmed state, for every input that does not contain
the run `IAC, BRK, BRK`, fed to `Scan` one byte at a time, the number of breaks raised is
the number of positions at which `IAC` is immediately followed by `BRK`. A single byte
raises a break exactly when it is `BRK` and the scanner is armed; a byte other than
`BRK` and `IAC` seen while armed leaves the scanner disarmed, and `IAC` leaves it armed. -/
theorem Scan_breaks_eq_countPairs (input : List Nat) (h : hasArmedRepeat input = false) :
    (feed initial input).breaks = countPairs input ∧
    (∀ (s : State) (c : Nat),
      (Scan s [c] 1).1.breaks = s.breaks + (if s.is_iac = true ∧ c = BRK then 1 else 0)) ∧
    (∀ (s : State) (c : Nat), c ≠ BRK → c ≠ IAC → (Scan s [c] 1).1.is_iac = false) ∧
    (∀ s : State, (Scan s [IAC] 1).1.is_iac = true) := by
  refine ⟨?_, ?_, ?_, ?_⟩
  · have hb := (breaksFrom_countPairs input).1 h
    rw [feed_breaks]
    simp only [initial, Nat.zero_add]
    exact hb
  · intro s c
    rw [Scan_single, ScanStep_breaks]
  · intro s c hb hi
    rw [Scan_single, ScanStep_is_iac]
    simp [hb, hi]
  · intro s
    rw [Scan_single, ScanStep_is_iac]
    simp

/-- Witness for C2 (amended): the input `a a b x b a b` raises two breaks. -/
theorem Scan_breaks_eq_countPairs_witness :
    hasArmedRepeat [97, 97, 98, 120, 98, 97, 98] = false ∧
    (feed initial [97, 97, 98, 120, 98, 97, 98]).breaks = 2 ∧
    countPairs [97, 97, 98, 120, 98, 97, 98] = 2 :=
  ⟨by decide,
   ((Scan_breaks_eq_countPairs [97, 97, 98, 120, 98, 97, 98] (by decide)).1).trans (by decide),
   by decide⟩

/-- C8: for every console control event type, `CtrlHandler` raises exactly one break and
returns `TRUE` when the event is Ctrl-C, close, logoff or shutdown, and raises no break
and returns `FALSE` for every other value, Ctrl-Break itself among them (so a break the
relay generated never makes the handler generate another); nothing else in the state
changes. -/
theorem CtrlHandler_breaks (s : State) (fdwCtrlType : Nat) :
    CtrlHandler s fdwCtrlType =
      (if fdwCtrlType ∈ [CTRL_C_EVENT, CTRL_CLOSE_EVENT, CTRL_LOGOFF_EVENT, CTRL_SHUTDOWN_EVENT]
       then ({ s with breaks := s.breaks + 1 }, true)
       else (s, false)) ∧
    CTRL_BREAK_EVENT ∉ [CTRL_C_EVENT, CTRL_CLOSE_EVENT, CTRL_LOGOFF_EVENT, CTRL_SHUTDOWN_EVENT] ∧
    CtrlHandler s CTRL_BREAK_EVENT = (s, false) := by
  refine ⟨?_, by decide, ?_⟩
  · unfold CtrlHandler CtrlBreak
    simp only [List.mem_cons, List.mem_singleton, List.not_mem_nil, or_false]
    split_ifs <;> rfl
  · simp [CtrlHandler, CTRL_C_EVENT, CTRL_CLOSE_EVENT, CTRL_LOGOFF_EVENT, CTRL_SHUTDOWN_EVENT,
      CTRL_BREAK_EVENT]

/-- C9 (the code at the failing input): the scanner's bytes are `IAC = 97` and `BRK = 98`
(the characters `a` and `b`), not the documented 255 and 243: the input `255, 243` raises
no break, and the printable input `ab` raises one. -/
theorem Scan_sentinel_is_ab :
    IAC = 97 ∧ BRK = 98 ∧ (feed initial [255, 243]).breaks = 0 ∧
    (feed initial [97, 98]).breaks = 1 := by
  decide

end Runnerw

/-! ## Theorems: process-restarter -/

namespace Restarter

theorem stdoutOf_append (a b : List Event) : stdoutOf (a ++ b) = stdoutOf a ++ stdoutOf b := by
  induction a with
  | nil => rfl
  | cons e l ih => cases e <;> simp [stdoutOf, ih]

theorem stderrOf_append (a b : List Event) : stderrOf (a ++ b) = stderrOf a ++ stderrOf b := by
  induction a with
  | nil => rfl
  | cons e l ih => cases e <;> simp [stderrOf, ih]

/-- The actions of `_tmain` up to and including the call of `_texecv`. -/
theorem tmain_trace (os : Os) (argv : List String) (h : 3 ≤ argv.length) :
    (_tmain os argv).trace =
      [Event.OpenProcess (os.ttoi (argv.getD 1 ""))] ++
      (match os.OpenProcess (os.ttoi (argv.getD 1 "")) with
        | none => []
        | some p => [Event.WaitForSingleObject p, Event.CloseHandle p]) ++
      [Event.execv (argv.getD 2 "") (argv.drop 2)] ++
      (match os.execv (argv.getD 2 "") (argv.drop 2) with
        | some (rc, errno) => if rc = -1 then [Event.stdout (errorText errno)] else []
        | none => []) := by
  have h3 : ¬ argv.length < 3 := by omega
  unfold _tmain
  rw [if_neg h3]
  dsimp only
  cases hp : os.OpenProcess (os.ttoi (argv.getD 1 "")) <;>
    cases he : os.execv (argv.getD 2 "") (argv.drop 2) with
    | none => simp
    | some r =>
      obtain ⟨rc, errno⟩ := r
      by_cases hrc : rc = -1 <;> simp [hrc]

/-- C5: with `argc >= 3`, `_tmain` first asks for the process handle of the PID `argv[1]`.
Without a handle it waits on nothing and goes on to exec; with a handle it waits on that
handle once and closes it, then goes on to exec. In both cases `_texecv` is called exactly
once, with executable `argv[2]` and argument vector `argv[2..]`, and what follows it is
at most the diagnostic output. -/
theorem tmain_waits_once_then_execs (os : Os) (argv : List String) (h : 3 ≤ argv.length) :
    ∃ out : List Event,
      (out = [] ∨ ∃ errno, out = [Event.stdout (errorText errno)]) ∧
      (_tmain os argv).trace =
        [Event.OpenProcess (os.ttoi (argv.getD 1 ""))] ++
        (match os.OpenProcess (os.ttoi (argv.getD 1 "")) with
          | none => []
          | some p => [Event.WaitForSingleObject p, Event.CloseHandle p]) ++
        [Event.execv (argv.getD 2 "") (argv.drop 2)] ++ out := by
  refine ⟨_, ?_, tmain_trace os argv h⟩
  cases he : os.execv (argv.getD 2 "") (argv.drop 2) with
  | none => exact Or.inl rfl
  | some r =>
    obtain ⟨rc, errno⟩ := r
    by_cases hrc : rc = -1
    · exact Or.inr ⟨errno, by simp [hrc]⟩
    · exact Or.inl (by simp [hrc])

/-- Witness for C5: a run with a live parent process and two forwarded arguments. -/
theorem tmain_waits_once_then_execs_witness :
    3 ≤ ["restarter", "4242", "idea.exe", "-x", "y"].length ∧
    ∃ out : List Event,
      (out = [] ∨ ∃ errno, out = [Event.stdout (errorText errno)]) ∧
      (_tmain sampleOs ["restarter", "4242", "idea.exe", "-x", "y"]).trace =
        [Event.OpenProcess 4242] ++ [Event.WaitForSingleObject 7, Event.CloseHandle 7] ++
        [Event.execv "idea.exe" ["idea.exe", "-x", "y"]] ++ out :=
  ⟨by decide,
   tmain_waits_once_then_execs sampleOs ["restarter", "4242", "idea.exe", "-x", "y"] (by decide)⟩

/-- C6 (as stated, refuted): when `_texecv` fails with `errno` 2, nothing is written to the
standard error stream; the diagnostic goes to the standard output stream. -/
theorem tmain_diagnostic_not_on_stderr :
    sampleOs.execv "idea.exe" ["idea.exe"] = some (-1, 2) ∧
    stderrOf (_tmain sampleOs ["restarter", "4242", "idea.exe"]).trace = [] ∧
    stdoutOf (_tmain sampleOs ["restarter", "4242", "idea.exe"]).trace =
      ["Error restarting process: errno is 2"] := by
  decide

/-- C6 (amended): with `argc >= 3`, when `_texecv` returns -1 the text
`Error restarting process: errno is <errno>` is written, once, to the standard output
stream; when it does not fail nothing is written to the standard output stream; and in
no case is anything written to the standard error stream. -/
theorem tmain_diagnostic_on_stdout (os : Os) (argv : List String) (h : 3 ≤ argv.length) :
    stderrOf (_tmain os argv).trace = [] ∧
    stdoutOf (_tmain os argv).trace =
      (match os.execv (argv.getD 2 "") (argv.drop 2) with
        | some (rc, errno) =>
          if rc = -1 then ["Error restarting process: errno is " ++ toString errno] else []
        | none => []) := by
  rw [tmain_trace os argv h]
  simp only [stdoutOf_append, stderrOf_append]
  cases hp : os.OpenProcess (os.ttoi (argv.getD 1 "")) <;>
    cases he : os.execv (argv.getD 2 "") (argv.drop 2) with
    | none => simp [stdoutOf, stderrOf]
    | some r =>
      obtain ⟨rc, errno⟩ := r
      by_cases hrc : rc = -1 <;> simp [hrc, stdoutOf, stderrOf, errorText]

/-- Witness for C6 (amended): a run in which `_texecv` fails with `errno` 2. -/
theorem tmain_diagnostic_on_stdout_witness :
    3 ≤ ["restarter", "4242", "idea.exe"].length ∧
    stderrOf (_tmain sampleOs ["restarter", "4242", "idea.exe"]).trace = [] ∧
    stdoutOf (_tmain sampleOs ["restarter", "4242", "idea.exe"]).trace =
      (match sampleOs.execv "idea.exe" ["idea.exe"] with
        | some (rc, errno) =>
          if rc = -1 then ["Error restarting process: errno is " ++ toString errno] else []
        | none => []) :=
  ⟨by decide, tmain_diagnostic_on_stdout sampleOs ["restarter", "4242", "idea.exe"] (by decide)⟩

/-- C7: `_tmain` returns 0 whenever it returns. It fails to return only when `argc >= 3`
and `_texecv` replaces the process image; with fewer than two arguments (`argc < 3`) it
returns 0 at once, without any wait or exec; and whether or not a parent handle was
obtained, a `_texecv` that returns (failed or not) is followed by `return 0`. -/
theorem tmain_returns_zero (os : Os) (argv : List String) :
    (_tmain os argv).exitCode =
      (if 3 ≤ argv.length ∧ os.execv (argv.getD 2 "") (argv.drop 2) = none then none
       else some 0) ∧
    _tmain os (argv.take 2) = { trace := [], exitCode := some 0 } := by
  constructor
  · unfold _tmain
    by_cases h3 : argv.length < 3
    · have : ¬ 3 ≤ argv.length := by omega
      simp [h3, this]
    · have h3b : 3 ≤ argv.length := by omega
      rw [if_neg h3]
      dsimp only
      cases he : os.execv (argv.getD 2 "") (argv.drop 2) with
      | none => simp [h3b]
      | some r =>
        obtain ⟨rc, errno⟩ := r
        by_cases hrc : rc = -1 <;> simp [hrc]
  · have hlen : (argv.take 2).length < 3 := by
      rw [List.length_take]
      omega
    unfold _tmain
    rw [if_pos hlen]

end Restarter

/-! ## Theorems: win32-file-info -/

namespace IdeaWin32

theorem take_set_succ (l : List (Option FileInfo)) (n : Nat) (x : Option FileInfo)
    (h : n < l.length) : (l.set n x).take (n + 1) = l.take n ++ [x] := by
  have hl : (l.take n).length = n := by
    rw [List.length_take]; omega
  rw [List.set_eq_take_append_cons_drop, if_pos h, List.take_append_eq_append_take, hl]
  simp

theorem set_take_drop (src dst : List (Option FileInfo)) (n : Nat)
    (hs : n < src.length) (hd : n < dst.length) :
    (src.take n ++ dst.drop n).set n (src.getD n none) =
      src.take (n + 1) ++ dst.drop (n + 1) := by
  have hl : (src.take n).length = n := by
    rw [List.length_take]; omega
  have ht : src.take (n + 1) = src.take n ++ [src[n]] := by
    rw [List.take_succ, List.getElem?_eq_getElem hs]
    rfl
  rw [List.set_append_right n _ (by omega), hl, Nat.sub_self,
    List.drop_eq_getElem_cons hd, List.set_cons_zero, ht, List.getD_eq_getElem _ _ hs,
    List.append_assoc]
  rfl

/-- The loop of `CopyObjectArray` copies the first `count` slots and keeps the rest. -/
theorem CopyObjectArray_fst (src : List (Option FileInfo)) (count : Nat) :
    ∀ dst : List (Option FileInfo), count ≤ src.length → count ≤ dst.length →
      (CopyObjectArray dst src count).1 = src.take count ++ dst.drop count := by
  induction count with
  | zero => intro dst _ _; simp [CopyObjectArray]
  | succ n ih =>
    intro dst hs hd
    have h := ih dst (by omega) (by omega)
    unfold CopyObjectArray at h ⊢
    simp only at h ⊢
    rw [List.range_succ, List.foldl_append, h]
    simp only [List.foldl_cons, List.foldl_nil]
    exact set_take_drop src dst n (by omega) (by omega)

theorem CopyObjectArray_snd (dst src : List (Option FileInfo)) (count : Nat) :
    (CopyObjectArray dst src count).2 = true := rfl

theorem NewObjectArray_ok (env : Env) (hA : ∀ k, env.arrayAlloc k = true) (n : Nat) :
    NewObjectArray env (n : Int) = some (List.replicate n none) := by
  unfold NewObjectArray
  have : ¬ ((n : Int) < 0) := by omega
  rw [if_neg this, Int.toNat_ofNat, hA]
  simp

theorem toInt32_double (m : Nat) (h : m ≤ 2 ^ 29) :
    toInt32 ((m : Int) * 2) = ((2 * m : Nat) : Int) := by
  have h29 : (2 : Nat) ^ 29 = 536870912 := by norm_num
  rw [h29] at h
  unfold toInt32
  norm_num
  omega

theorem NewObjectArray_double (env : Env) (hA : ∀ n, env.arrayAlloc n = true) (k : Nat)
    (hpow : 2 ^ k ≤ 2 ^ 29) :
    NewObjectArray env (toInt32 (((2 ^ k : Nat) : Int) * 2)) =
      some (List.replicate (2 * 2 ^ k) none) := by
  rw [toInt32_double _ hpow]
  exact NewObjectArray_ok env hA _

theorem toInt32_double_toNat (k : Nat) (hpow : 2 ^ k ≤ 2 ^ 29) :
    (toInt32 (((2 ^ k : Nat) : Int) * 2)).toNat = 2 * 2 ^ k := by
  rw [toInt32_double _ hpow]
  exact Int.toNat_ofNat _

/-- With allocations succeeding and fewer than `2^30` entries stored, the capacity check
at the head of the loop body leaves an array whose capacity is a power of two above
`len` and whose first `len` slots are unchanged. -/
theorem growIfFull_ok (env : Env) (hA : ∀ n, env.arrayAlloc n = true)
    (rv : List (Option FileInfo)) (len k : Nat)
    (hrv : rv.length = 2 ^ k) (hlen : len ≤ 2 ^ k) (hbound : len < 2 ^ 30) :
    ∃ (rv1 : List (Option FileInfo)) (k1 : Nat),
      growIfFull env rv len (2 ^ k) = some (rv1, 2 ^ k1) ∧ rv1.length = 2 ^ k1 ∧
      len < 2 ^ k1 ∧ rv1.take len = rv.take len := by
  have hpos : 0 < 2 ^ k := Nat.two_pow_pos k
  by_cases hfull : len = 2 ^ k
  · have hk : k < 30 := by
      have : 2 ^ k < 2 ^ 30 := by omega
      exact (Nat.pow_lt_pow_iff_right (by norm_num)).1 this
    have hpow : 2 ^ k ≤ 2 ^ 29 := Nat.pow_le_pow_right (by norm_num) (by omega)
    have h2 : 2 ^ (k + 1) = 2 * 2 ^ k := by rw [Nat.pow_succ]; omega
    have hcopy := CopyObjectArray_fst rv len (List.replicate (2 * 2 ^ k) none)
      (by omega) (by rw [List.length_replicate]; omega)
    refine ⟨rv.take len ++ (List.replicate (2 * 2 ^ k) none).drop len, k + 1, ?_, ?_, ?_, ?_⟩
    · rw [h2]
      unfold growIfFull
      rw [if_pos hfull]
      simp only [NewObjectArray_double env hA k hpow, toInt32_double_toNat k hpow,
        CopyObjectArray_snd, hcopy]
      rfl
    · rw [List.length_append, List.length_take, List.length_drop, List.length_replicate, h2]
      omega
    · rw [h2]; omega
    · rw [List.take_append_eq_append_take, List.length_take]
      have : len - min len rv.length = 0 := by omega
      rw [this]
      simp
  · refine ⟨rv, k, ?_, hrv, by omega, rfl⟩
    unfold growIfFull
    rw [if_neg hfull]

/-- Loop invariant of `listChildren`: the first `len` slots of `rv` hold the records built
so far, in order, and the capacity is a power of two. -/
theorem listLoop_ok (env : Env) (path : List Nat) (hA : ∀ n, env.arrayAlloc n = true) :
    ∀ (entries : List WIN32_FIND_DATA) (rv : List (Option FileInfo)) (len k : Nat),
      rv.length = 2 ^ k → len ≤ 2 ^ k → len + entries.length ≤ 2 ^ 30 →
      ∃ rv1 : List (Option FileInfo),
        listLoop env path entries rv len (2 ^ k) = some (rv1, len + entries.length) ∧
        len + entries.length ≤ rv1.length ∧
        rv1.take (len + entries.length) =
          rv.take len ++ entries.map (fun d => (CreateFileInfo env path true d).1) := by
  intro entries
  induction entries with
  | nil =>
    intro rv len k hrv hlen _
    exact ⟨rv, by simp [listLoop], by simp; omega, by simp⟩
  | cons d ds ih =>
    intro rv len k hrv hlen hbound
    simp only [List.length_cons] at hbound
    obtain ⟨rv1, k1, hg, hrv1, hlt, htake⟩ :=
      growIfFull_ok env hA rv len k hrv hlen (by omega)
    obtain ⟨rv2, hloop, hlen2, htake2⟩ :=
      ih (rv1.set len (CreateFileInfo env path true d).1) (len + 1) k1
        (by rw [List.length_set]; exact hrv1) (by omega) (by omega)
    refine ⟨rv2, ?_, ?_, ?_⟩
    · unfold listLoop
      rw [hg]
      simp only
      rw [hloop]
      simp only [List.length_cons]
      congr 2
      omega
    · simp only [List.length_cons]; omega
    · have e : len + (d :: ds).length = len + 1 + ds.length := by
        simp only [List.length_cons]; omega
      rw [e, htake2, take_set_succ rv1 len _ (by omega), htake]
      simp

theorem NewObjectArray_some (env : Env) (size : Int) (rv : List (Option FileInfo))
    (h : NewObjectArray env size = some rv) :
    0 ≤ size ∧ rv = List.replicate size.toNat none := by
  unfold NewObjectArray at h
  by_cases hneg : size < 0
  · rw [if_pos hneg] at h
    exact Option.noConfusion h
  · rw [if_neg hneg] at h
    by_cases ha : env.arrayAlloc size.toNat = true
    · rw [if_pos ha] at h
      exact ⟨by omega, (Option.some.inj h).symm⟩
    · rw [if_neg ha] at h
      exact Option.noConfusion h

theorem toInt32_double_nonneg (m : Nat) (hm : m < 2 ^ 31)
    (h : 0 ≤ toInt32 ((m : Int) * 2)) :
    (toInt32 ((m : Int) * 2)).toNat = 2 * m ∧ 2 * m < 2 ^ 31 := by
  have h31 : (2 : Nat) ^ 31 = 2147483648 := by norm_num
  rw [h31] at hm ⊢
  unfold toInt32 at h ⊢
  norm_num at h ⊢
  split_ifs at h ⊢ <;> omega

/-- Whenever the capacity check does not jump to `error`, it leaves an array with room
for one more slot whose first `len` slots are unchanged. -/
theorem growIfFull_sound (env : Env) (rv rv1 : List (Option FileInfo)) (len maxlen m1 : Nat)
    (hrv : rv.length = maxlen) (hlen : len ≤ maxlen) (hpos : 0 < maxlen)
    (hmax : maxlen < 2 ^ 31) (h : growIfFull env rv len maxlen = some (rv1, m1)) :
    rv1.length = m1 ∧ len < m1 ∧ m1 < 2 ^ 31 ∧ rv1.take len = rv.take len := by
  unfold growIfFull at h
  by_cases hfull : len = maxlen
  · rw [if_pos hfull] at h
    cases hN : NewObjectArray env (toInt32 ((maxlen : Int) * 2)) with
    | none => rw [hN] at h; exact Option.noConfusion h
    | some rv2 =>
      rw [hN] at h
      simp only [CopyObjectArray_snd, Bool.not_true] at h
      obtain ⟨hnn, hrv2⟩ := NewObjectArray_some env _ rv2 hN
      obtain ⟨hnat, hlt⟩ := toInt32_double_nonneg maxlen hmax hnn
      rw [hnat] at hrv2 h
      have hcopy := CopyObjectArray_fst rv len rv2 (by omega)
        (by rw [hrv2, List.length_replicate]; omega)
      rw [hcopy] at h
      have h1 := (Prod.mk.inj (Option.some.inj h)).1
      have h2 := (Prod.mk.inj (Option.some.inj h)).2
      subst h1 h2
      refine ⟨?_, by omega, hlt, ?_⟩
      · rw [List.length_append, List.length_take, List.length_drop, hrv2,
          List.length_replicate]
        omega
      · rw [List.take_append_eq_append_take, List.length_take]
        have : len - min len rv.length = 0 := by omega
        rw [this]
        simp
  · rw [if_neg hfull] at h
    have h1 := (Prod.mk.inj (Option.some.inj h)).1
    have h2 := (Prod.mk.inj (Option.some.inj h)).2
    subst h1 h2
    exact ⟨hrv, by omega, hmax, rfl⟩

/-- Whenever the loop of `listChildren` does not jump to `error`, the first `len` slots of
its array hold the records built from the enumerated records, in order. -/
theorem listLoop_sound (env : Env) (path : List Nat) :
    ∀ (entries : List WIN32_FIND_DATA) (rv rv1 : List (Option FileInfo))
      (len maxlen len1 : Nat),
      rv.length = maxlen → len ≤ maxlen → 0 < maxlen → maxlen < 2 ^ 31 →
      listLoop env path entries rv len maxlen = some (rv1, len1) →
      len1 = len + entries.length ∧ len1 ≤ rv1.length ∧
      rv1.take len1 =
        rv.take len ++ entries.map (fun d => (CreateFileInfo env path true d).1) := by
  intro entries
  induction entries with
  | nil =>
    intro rv rv1 len maxlen len1 hrv hlen _ _ h
    simp only [listLoop, Option.some.injEq, Prod.mk.injEq] at h
    obtain ⟨h1, h2⟩ := h
    subst h1 h2
    exact ⟨by simp, by omega, by simp⟩
  | cons d ds ih =>
    intro rv rv1 len maxlen len1 hrv hlen hpos hmax h
    unfold listLoop at h
    cases hg : growIfFull env rv len maxlen with
    | none => rw [hg] at h; exact Option.noConfusion h
    | some p =>
      obtain ⟨rv2, m2⟩ := p
      rw [hg] at h
      simp only at h
      obtain ⟨hrv2, hlt, hm2, htake⟩ :=
        growIfFull_sound env rv rv2 len maxlen m2 hrv hlen hpos hmax hg
      obtain ⟨hl1, hl2, hl3⟩ :=
        ih (rv2.set len (CreateFileInfo env path true d).1) rv1 (len + 1) m2 len1
          (by rw [List.length_set]; exact hrv2) (by omega) (by omega) hm2 h
      refine ⟨by simp only [List.length_cons]; omega, hl2, ?_⟩
      rw [hl3, take_set_succ rv2 len _ (by omega), htake]
      simp

theorem listChildren_sound (env : Env) (path : List Nat) (arr : List (Option FileInfo))
    (h : Java_com_intellij_openapi_util_io_win32_IdeaWin32_listChildren env path = some arr) :
    arr = (env.FindFirstFile path).map (fun d => (CreateFileInfo env path true d).1) := by
  unfold Java_com_intellij_openapi_util_io_win32_IdeaWin32_listChildren at h
  cases hf : env.FindFirstFile path with
  | nil => rw [hf] at h; exact Option.noConfusion h
  | cons d ds =>
    rw [hf] at h
    simp only at h
    by_cases hc : env.FindClass = true
    · simp only [hc, Bool.not_true, Bool.false_eq_true, if_false] at h
      cases h16 : NewObjectArray env 16 with
      | none => rw [h16] at h; exact Option.noConfusion h
      | some rv0 =>
        rw [h16] at h
        simp only at h
        obtain ⟨_, hrv0⟩ := NewObjectArray_some env 16 rv0 h16
        cases hl : listLoop env path (d :: ds) rv0 0 16 with
        | none => rw [hl] at h; exact Option.noConfusion h
        | some p =>
          obtain ⟨old, len⟩ := p
          rw [hl] at h
          simp only at h
          obtain ⟨hlen, hle, htake⟩ := listLoop_sound env path (d :: ds) rv0 old 0 16 len
            (by rw [hrv0]; simp) (by omega) (by omega) (by norm_num) hl
          cases hN : NewObjectArray env (len : Int) with
          | none => rw [hN] at h; exact Option.noConfusion h
          | some rv =>
            rw [hN] at h
            simp only [CopyObjectArray_snd, Bool.not_true, Bool.false_eq_true, if_false,
              Option.some.injEq] at h
            obtain ⟨_, hrv⟩ := NewObjectArray_some env _ rv hN
            rw [Int.toNat_ofNat] at hrv
            have hcopy := CopyObjectArray_fst old len rv hle
              (by rw [hrv, List.length_replicate])
            rw [hcopy, htake, hrv] at h
            rw [← h]
            simp
    · simp [hc] at h

theorem CreateFileInfo_isSome (env : Env) (path : List Nat) (append : Bool)
    (d : WIN32_FIND_DATA) (hobj : env.AllocObject = true) (hstr : env.NewString d.cFileName = true) :
    ∃ r, (CreateFileInfo env path append d).1 = some r := by
  unfold CreateFileInfo
  simp [hobj, hstr]

/-- C3: let the enumeration of the directory yield the `n >= 1` records `entries`.
Whenever `listChildren` returns an array (no allocation failed on the way), the array has
exactly `n` slots and its `i`-th slot is what `CreateFileInfo` builds from the `i`-th
enumerated record, in enumeration order. It does return that array when every array
allocation succeeds and `n <= 2^30` (the largest capacity the doubling from 16 reaches;
past it the 32-bit `maxlen <<= 1` is negative and the allocation cannot succeed). When the
object and string allocations succeed too, every slot holds a record. -/
theorem listChildren_returns_every_entry (env : Env) (path : List Nat)
    (entries : List WIN32_FIND_DATA)
    (hfind : env.FindFirstFile path = entries) (hne : entries ≠ []) :
    (∀ arr, Java_com_intellij_openapi_util_io_win32_IdeaWin32_listChildren env path = some arr →
      arr = entries.map (fun d => (CreateFileInfo env path true d).1) ∧
      arr.length = entries.length) ∧
    (entries.length ≤ 2 ^ 30 → env.FindClass = true → (∀ n, env.arrayAlloc n = true) →
      Java_com_intellij_openapi_util_io_win32_IdeaWin32_listChildren env path =
        some (entries.map (fun d => (CreateFileInfo env path true d).1))) ∧
    (env.AllocObject = true → (∀ s, env.NewString s = true) →
      ∀ d ∈ entries, ∃ r, (CreateFileInfo env path true d).1 = some r) := by
  refine ⟨?_, ?_, fun hobj hstr d _ => CreateFileInfo_isSome env path true d hobj (hstr _)⟩
  · intro arr harr
    have hs := listChildren_sound env path arr harr
    rw [hfind] at hs
    exact ⟨hs, by rw [hs, List.length_map]⟩
  · intro hn hclass hA
    obtain ⟨old, hloop, hlen, htake⟩ :=
      listLoop_ok env path hA entries (List.replicate 16 none) 0 4
        (by simp) (by omega) (by omega)
    have h16 : NewObjectArray env 16 = some (List.replicate 16 none) :=
      NewObjectArray_ok env hA 16
    have hcopy := CopyObjectArray_fst old (0 + entries.length)
      (List.replicate (0 + entries.length) none) hlen (by simp)
    unfold Java_com_intellij_openapi_util_io_win32_IdeaWin32_listChildren
    rw [hfind]
    cases entries with
    | nil => exact absurd rfl hne
    | cons d ds =>
      have hp : (2 : Nat) ^ 4 = 16 := by norm_num
      rw [hp] at hloop
      simp only [hclass, h16, hloop, NewObjectArray_ok env hA, CopyObjectArray_snd, hcopy,
        htake]
      simp

/-- Witness for C3: a directory of 17 files, one more than the initial capacity. -/
theorem listChildren_returns_every_entry_witness :
    (sampleEnv ((List.range 17).map sampleEntry)).FindFirstFile [67, 58, 92, 42] =
      (List.range 17).map sampleEntry ∧
    (List.range 17).map sampleEntry ≠ [] ∧
    Java_com_intellij_openapi_util_io_win32_IdeaWin32_listChildren
      (sampleEnv ((List.range 17).map sampleEntry)) [67, 58, 92, 42] =
      some (((List.range 17).map sampleEntry).map (fun d =>
        (CreateFileInfo (sampleEnv ((List.range 17).map sampleEntry)) [67, 58, 92, 42] true d).1)) :=
  ⟨rfl, by decide,
   (listChildren_returns_every_entry (sampleEnv ((List.range 17).map sampleEntry))
      [67, 58, 92, 42] ((List.range 17).map sampleEntry) rfl (by decide)).2.1 (by decide) rfl
      (fun _ => rfl)⟩

/-- C4: for a find record with the reparse-point bit set and the symbolic-link tag, when
the link target cannot be opened (`CreateFile` fails) or its information cannot be
queried (`GetFileInformationByHandle` fails), the record `CreateFileInfo` builds has
attributes `BROKEN_SYMLINK_ATTR = -1`, timestamp 0 and length 0, whatever the find record
carried; it builds that record whenever the two JNI allocations succeed (and returns
`NULL` otherwise). -/
theorem CreateFileInfo_broken_symlink (env : Env) (path : List Nat) (append : Bool)
    (d : WIN32_FIND_DATA)
    (hr : IS_SET d.dwFileAttributes FILE_ATTRIBUTE_REPARSE_POINT = true)
    (ht : d.dwReserved0 = IO_REPARSE_TAG_SYMLINK)
    (hfail : env.CreateFile (linkName path append d) = none ∨
      ∃ th, env.CreateFile (linkName path append d) = some th ∧
        env.GetFileInformationByHandle th = none) :
    BROKEN_SYMLINK_ATTR = -1 ∧
    (CreateFileInfo env path append d).1 =
      (if env.AllocObject = true ∧ env.NewString d.cFileName = true then
        some { name := d.cFileName, attributes := BROKEN_SYMLINK_ATTR, timestamp := 0, length := 0 }
       else none) := by
  refine ⟨rfl, ?_⟩
  have htag : IS_SET d.dwReserved0 IO_REPARSE_TAG_SYMLINK = true := by
    rw [ht]; decide
  have hj : toJint (toDWORD BROKEN_SYMLINK_ATTR) = BROKEN_SYMLINK_ATTR := by decide
  unfold CreateFileInfo
  simp only [hr, htag, if_true]
  by_cases hm : env.malloc ((path.length + d.cFileName.length + 2) * 2) = true
  · rcases hfail with hc | ⟨th, hc, hg⟩
    · simp only [hm, hc, if_true, hj]
      by_cases ho : env.AllocObject = true <;> by_cases hs : env.NewString d.cFileName = true <;>
        simp [ho, hs]
    · simp only [hm, hc, hg, if_true, hj]
      by_cases ho : env.AllocObject = true <;> by_cases hs : env.NewString d.cFileName = true <;>
        simp [ho, hs]
  · simp only [hm]
    by_cases ho : env.AllocObject = true <;> by_cases hs : env.NewString d.cFileName = true <;>
      simp [ho, hs, hj]

/-- Witness for C4: a symbolic link whose target does not open. -/
theorem CreateFileInfo_broken_symlink_witness :
    IS_SET symlinkEntry.dwFileAttributes FILE_ATTRIBUTE_REPARSE_POINT = true ∧
    symlinkEntry.dwReserved0 = IO_REPARSE_TAG_SYMLINK ∧
    (CreateFileInfo (sampleEnv []) [67, 58] true symlinkEntry).1 =
      some { name := [76], attributes := -1, timestamp := 0, length := 0 } :=
  ⟨by decide, by decide,
   ((CreateFileInfo_broken_symlink (sampleEnv []) [67, 58] true symlinkEntry (by decide)
      (by decide) (Or.inl rfl)).2).trans (by decide)⟩

/-- The 64-bit value `pairToInt64` returns: as an unsigned 64-bit word it is
`low + high * 2^32`, and it is that number itself whenever `high < 2^31`. -/
theorem pairToInt64_value (low high : Nat) (hl : low < 2 ^ 32) (hh : high < 2 ^ 32) :
    pairToInt64 low high % 2 ^ 64 = (low : Int) + (high : Int) * 2 ^ 32 ∧
    (high < 2 ^ 31 → pairToInt64 low high = (low : Int) + (high : Int) * 2 ^ 32) := by
  have e32 : (2 : Nat) ^ 32 = 4294967296 := by norm_num
  have e31 : (2 : Nat) ^ 31 = 2147483648 := by norm_num
  rw [e32] at hl hh
  rw [e31]
  unfold pairToInt64
  simp only [Nat.mod_eq_of_lt (e32 ▸ hl), Nat.mod_eq_of_lt (e32 ▸ hh)]
  norm_num
  constructor
  · split_ifs <;> omega
  · intro h
    omega

/-- Clearing the reparse-point bit: `attributes & ~FILE_ATTRIBUTE_REPARSE_POINT` has
exactly the bits of `attributes` other than bit 10. -/
theorem clear_reparse_bit (a : Nat) (ha : a < 2 ^ 32) (i : Nat) :
    (a &&& toDWORD (-(FILE_ATTRIBUTE_REPARSE_POINT : Int) - 1)).testBit i =
      (a.testBit i && decide (i ≠ 10)) := by
  have hc : toDWORD (-(FILE_ATTRIBUTE_REPARSE_POINT : Int) - 1) = 0xFFFFFBFF := by decide
  have hb : ∀ j, j < 32 → Nat.testBit 0xFFFFFBFF j = decide (j ≠ 10) := by decide
  rw [hc, Nat.testBit_and]
  by_cases hi : i < 32
  · rw [hb i hi]
  · have hlt : a < 2 ^ i := lt_of_lt_of_le ha (Nat.pow_le_pow_right (by norm_num) (by omega))
    rw [Nat.testBit_lt_two_pow hlt]
    simp

/-- When the reparse-point bit is set and the tag does not have all the bits of
`IO_REPARSE_TAG_SYMLINK`, no link target is opened, the reparse-point bit is masked off
and the timestamp and length are those of the find record. -/
theorem CreateFileInfo_other_tag (env : Env) (path : List Nat) (append : Bool)
    (d : WIN32_FIND_DATA)
    (hr : IS_SET d.dwFileAttributes FILE_ATTRIBUTE_REPARSE_POINT = true)
    (ht : IS_SET d.dwReserved0 IO_REPARSE_TAG_SYMLINK = false) :
    CreateFileInfo env path append d =
      ((if env.AllocObject = true ∧ env.NewString d.cFileName = true then
          some { name := d.cFileName
                 attributes := toJint (d.dwFileAttributes &&&
                   toDWORD (-(FILE_ATTRIBUTE_REPARSE_POINT : Int) - 1))
                 timestamp := pairToInt64 d.ftLastWriteTime.dwLowDateTime
                   d.ftLastWriteTime.dwHighDateTime
                 length := pairToInt64 d.nFileSizeLow d.nFileSizeHigh }
        else none), []) := by
  unfold CreateFileInfo
  simp only [hr, ht, if_true]
  by_cases ho : env.AllocObject = true <;> by_cases hs : env.NewString d.cFileName = true <;>
    simp [ho, hs]

/-- C10 (the code at the failing input): the find record `lxLinkEntry` has the reparse-point
bit set and the tag `0xA000001D`, which is not `IO_REPARSE_TAG_SYMLINK`; yet `CreateFileInfo`
takes the symbolic-link path: it passes the link name to `CreateFile` and, the target not
opening, reports attributes -1, timestamp 0 and length 0 instead of the found attributes
with the reparse-point bit cleared (`0x10`) and the found time and size. -/
theorem CreateFileInfo_symlink_path_on_other_tag :
    IS_SET lxLinkEntry.dwFileAttributes FILE_ATTRIBUTE_REPARSE_POINT = true ∧
    lxLinkEntry.dwReserved0 ≠ IO_REPARSE_TAG_SYMLINK ∧
    IS_SET lxLinkEntry.dwReserved0 IO_REPARSE_TAG_SYMLINK = true ∧
    CreateFileInfo (sampleEnv []) [67, 58] true lxLinkEntry =
      (some { name := [76], attributes := -1, timestamp := 0, length := 0 },
        [[67, 58, 92, 76]]) ∧
    CreateFileInfo (sampleEnv []) [67, 58] true lxLinkEntry ≠
      (some { name := [76], attributes := 0x10, timestamp := 5 + 6 * 2 ^ 32, length := 7 }, []) := by
  decide

end IdeaWin32
